import Mathlib

/-!
Shallow embedding of the CLI adapter core of the llm-council repository
(`backend/cli_adapter.py`, configuration shapes from `backend/cli_config.py`),
together with proofs checking the natural-language specification against it.

Python dictionaries of messages are modelled as structures with optional
fields (`Option String`), mirroring `dict.get` with and without defaults.
Python dicts used as mappings are modelled as association lists in which a
later binding for the same key overwrites an earlier one, which is exactly
the semantics of a dict comprehension.  The subprocess boundary is modelled
by an environment function from the spawned argument vector and timeout to a
`ProcEvent` describing what the process run did; exceptions raised inside
the `try` block of `query_model` correspond to the failure constructors, and
a strict-decode failure corresponds to `utf8Decode?` returning `none`.
-/

/-- A chat message: a Python dict that may or may not carry the
`role` and `content` keys (`msg.get("role", "user")`, `msg.get("content", "")`). -/
structure Message where
  role : Option String
  content : Option String
deriving DecidableEq, Repr

/-- The body of the `for msg in messages` loop of
`format_messages_as_prompt`: the part contributed by one message, if any.
`role = msg.get("role", "user")`, `content = msg.get("content", "")`. -/
def rolePart (m : Message) : Option String :=
  let role := m.role.getD "user"
  let content := m.content.getD ""
  if role = "system" then some ("System: " ++ content)
  else if role = "user" then some ("User: " ++ content)
  else if role = "assistant" then some ("Assistant: " ++ content)
  else none

/-- `format_messages_as_prompt` from `backend/cli_adapter.py`: collect the
role-prefixed parts, then return the lone message's content when the
conversation is a single message whose `role` key is present and equal to
`"user"` (`messages[0].get("role") == "user"`), and otherwise the parts
joined by a blank line. -/
def format_messages_as_prompt (messages : List Message) : String :=
  let parts := messages.filterMap rolePart
  match messages with
  | [m] => if m.role = some "user" then m.content.getD "" else String.intercalate "\n\n" parts
  | _ => String.intercalate "\n\n" parts

example : format_messages_as_prompt [⟨some "user", some "Hello"⟩] = "Hello" := rfl

example : format_messages_as_prompt
    [⟨some "system", some "You are helpful."⟩, ⟨some "user", some "Hi"⟩,
     ⟨some "assistant", some "Hello!"⟩, ⟨some "user", some "Bye"⟩] =
    "System: You are helpful.\n\nUser: Hi\n\nAssistant: Hello!\n\nUser: Bye" := rfl

example : format_messages_as_prompt [⟨none, some "Hi"⟩] = "User: Hi" := rfl

example : format_messages_as_prompt [] = "" := rfl

example : format_messages_as_prompt [⟨some "tool", some "x"⟩, ⟨some "tool", some "y"⟩] = "" := rfl

/-- The character class stripped by Python's `str.strip()` (the ASCII
whitespace characters relevant to CLI transcripts). -/
def isPySpace (c : Char) : Bool :=
  c = ' ' || c = '\t' || c = '\n' || c = '\r' || c.toNat = 11 || c.toNat = 12

/-- Python `s.strip()`: remove leading and trailing whitespace, leaving the
interior untouched. -/
def pyStrip (s : String) : String :=
  String.mk (((s.toList.dropWhile isPySpace).reverse.dropWhile isPySpace).reverse)

example : pyStrip "  a b \n" = "a b" := rfl
example : pyStrip "a\nb" = "a\nb" := rfl

/-- Python `s.split(sep)` for a single-character separator, on character
lists: always returns one more chunk than there are separator occurrences,
so e.g. splitting `"a\n"` gives `["a", ""]`. -/
def pySplit (sep : Char) : List Char → List (List Char)
  | [] => [[]]
  | c :: t =>
    match pySplit sep t with
    | [] => [[]]
    | h :: r => if c = sep then [] :: h :: r else (c :: h) :: r

/-- Python `content.split('\n')` on strings. -/
def pySplitNl (s : String) : List String :=
  (pySplit '\n' s.toList).map String.mk

example : pySplitNl "a\nb\n" = ["a", "b", ""] := rfl
example : pySplitNl "" = [""] := rfl

/-- Python `s.startswith(p)`. -/
def pyStartsWith (s p : String) : Bool :=
  p.toList.isPrefixOf s.toList

/-- Python `sub in s` (substring containment) on character lists. -/
def pyContains (sub : List Char) : List Char → Bool
  | [] => sub.isEmpty
  | c :: t => sub.isPrefixOf (c :: t) || pyContains sub t

/-- The line scan of `filter_codex_thinking`: the `for line in lines` loop
with its `in_codex_section` flag, returning the list `codex_content` of
captured lines.  A line stripping to `codex` turns capture on and is itself
skipped; a line whose stripped form starts with `tokens used` breaks the
loop unconditionally (whether or not capture is on); other lines are kept
exactly when capture is on. -/
def codexScan : List String → Bool → List String
  | [], _ => []
  | line :: rest, inSection =>
    let stripped := pyStrip line
    if stripped = "codex" then codexScan rest true
    else if pyStartsWith stripped "tokens used" then []
    else if inSection then line :: codexScan rest inSection
    else codexScan rest inSection

/-- Python `s.split(sep, 1)[1]` when `sep` occurs in `s` (as character
lists): everything after the first occurrence of `sep`; `none` when `sep`
does not occur. -/
def afterFirst (sep : List Char) : List Char → Option (List Char)
  | [] => none
  | c :: t => if sep.isPrefixOf (c :: t) then some ((c :: t).drop sep.length) else afterFirst sep t

/-- Python `s.split(sep)[0]` (as character lists): everything before the
first occurrence of `sep`, or all of `s` when `sep` does not occur. -/
def takeBeforeFirst (sep : List Char) : List Char → List Char
  | [] => []
  | c :: t => if sep.isPrefixOf (c :: t) then [] else c :: takeBeforeFirst sep t

/-- `filter_codex_thinking` from `backend/cli_adapter.py`: primary line scan
between the `codex` marker and a `tokens used` line; then the substring
fallback on `"\ncodex\n"` truncated at `"\ntokens used"`; finally the
stripped input unchanged. -/
def filter_codex_thinking (content : String) : String :=
  let lines := pySplitNl content
  let codexContent := codexScan lines false
  if codexContent ≠ [] then
    pyStrip (String.intercalate "\n" codexContent)
  else if pyContains (String.toList "\ncodex\n") content.toList then
    match afterFirst (String.toList "\ncodex\n") content.toList with
    | some rest => pyStrip (String.mk (takeBeforeFirst (String.toList "\ntokens used") rest))
    | none => pyStrip content
  else
    pyStrip content

example : filter_codex_thinking
    "OpenAI Codex v0.77.0 (research preview)\n--------\nworkdir: /Users/test\nuser\nWhat is 2+2?\nthinking\n**Calculating the sum**\ncodex\nFour\ntokens used\n1,288\n" =
    "Four" := rfl

example : filter_codex_thinking "Just some plain text" = "Just some plain text" := rfl

example : filter_codex_thinking "codex\nA\nB\ntokens used\n9" = "A\nB" := rfl

/-- One entry of `config["clis"]` as `cli_config.load_config` returns it
(the fields `get_cli_configs` reads). -/
structure Cli where
  id : String
  command : String
  args : List String
deriving DecidableEq, Repr

/-- The value shape of the mapping built by `get_cli_configs`:
`{"command": ..., "args": ...}`. -/
structure CliConfig where
  command : String
  args : List String
deriving DecidableEq, Repr

/-- Lookup in a Python dict built by a comprehension over an association
list: a later binding for the same key overwrites an earlier one. -/
def dictLookup {α : Type} : List (String × α) → String → Option α
  | [], _ => none
  | (k', v) :: rest, k =>
    match dictLookup rest k with
    | some v' => some v'
    | none => if k = k' then some v else none

/-- `get_cli_configs` from `backend/cli_adapter.py`: the dict comprehension
`{cli["id"]: {"command": cli["command"], "args": cli["args"]} for cli in
config["clis"]}`.  The loaded configuration is the environment's input. -/
def get_cli_configs (clis : List Cli) : List (String × CliConfig) :=
  clis.map fun c => (c.id, { command := c.command, args := c.args })

/-- Whether one byte is a UTF-8 continuation byte. -/
def isCont (b : Nat) : Bool := 0x80 ≤ b && b ≤ 0xBF

/-- Valid range of the first continuation byte of a three-byte UTF-8
sequence headed by `b` (excludes overlong forms and surrogates, as Python's
strict decoder does). -/
def cont1ok3 (b c1 : Nat) : Bool :=
  if b = 0xE0 then 0xA0 ≤ c1 && c1 ≤ 0xBF
  else if b = 0xED then 0x80 ≤ c1 && c1 ≤ 0x9F
  else isCont c1

/-- Valid range of the first continuation byte of a four-byte UTF-8
sequence headed by `b` (excludes overlong forms and code points past
U+10FFFF). -/
def cont1ok4 (b c1 : Nat) : Bool :=
  if b = 0xF0 then 0x90 ≤ c1 && c1 ≤ 0xBF
  else if b = 0xF4 then 0x80 ≤ c1 && c1 ≤ 0x8F
  else isCont c1

/-- Decode one UTF-8 scalar from the front of a byte list, returning the
character and the remaining bytes, or `none` on any malformed prefix. -/
def decodeOne : List Nat → Option (Char × List Nat)
  | [] => none
  | b :: rest =>
    if b ≤ 0x7F then some (Char.ofNat b, rest)
    else if 0xC2 ≤ b && b ≤ 0xDF then
      match rest with
      | c1 :: r =>
        if isCont c1 then some (Char.ofNat (((b - 0xC0) * 64) + (c1 - 0x80)), r) else none
      | [] => none
    else if 0xE0 ≤ b && b ≤ 0xEF then
      match rest with
      | c1 :: c2 :: r =>
        if cont1ok3 b c1 && isCont c2 then
          some (Char.ofNat ((((b - 0xE0) * 4096) + ((c1 - 0x80) * 64)) + (c2 - 0x80)), r)
        else none
      | _ => none
    else if 0xF0 ≤ b && b ≤ 0xF4 then
      match rest with
      | c1 :: c2 :: c3 :: r =>
        if cont1ok4 b c1 && isCont c2 && isCont c3 then
          some (Char.ofNat (((((b - 0xF0) * 262144) + ((c1 - 0x80) * 4096)) + ((c2 - 0x80) * 64)) + (c3 - 0x80)), r)
        else none
      | _ => none
    else none

/-- Fuelled driver for the strict UTF-8 decoder; `decodeOne` consumes at
least one byte per step, so fuel equal to the byte count suffices. -/
def utf8DecodeFuel : Nat → List Nat → Option (List Char)
  | _, [] => some []
  | 0, _ :: _ => none
  | fuel + 1, bs =>
    match decodeOne bs with
    | some (c, rest) => (utf8DecodeFuel fuel rest).map (c :: ·)
    | none => none

/-- Python `bytes.decode()` (strict UTF-8): the decoded characters, or
`none` when the bytes are not valid UTF-8 (in the source this raises
`UnicodeDecodeError`). -/
def utf8Decode? (bs : List Nat) : Option (List Char) :=
  utf8DecodeFuel bs.length bs

example : utf8Decode? [72, 105] = some ['H', 'i'] := rfl
example : utf8Decode? [255] = none := rfl
example : utf8Decode? [0xC3, 0xA9] = some ['é'] := rfl
example : utf8Decode? [0xC3] = none := rfl

/-- What one run of the external process did, as observed by `query_model`
at its `await` points: the exception raised during spawn/communicate, or
the exit with a return code and the separately captured stdout and stderr
byte streams. -/
inductive ProcEvent where
  | fileNotFound
  | timeout
  | spawnFault
  | exited (returncode : Int) (stdout : List Nat) (stderr : List Nat)
deriving DecidableEq, Repr

/-- A process environment: what the spawned process does, as a function of
the exact argument vector passed to `create_subprocess_exec` (no shell
string ever exists) and the timeout handed to `wait_for`. -/
def ProcEnv : Type := List String → ℚ → ProcEvent

/-- The result dict of a successful `query_model` call:
`{'content': ..., 'reasoning_details': None}`. -/
structure QueryResult where
  content : String
  reasoning_details : Option String
deriving DecidableEq, Repr

/-- The part of `query_model` from the `try` block onward, given the model
name and the process event: timeouts, missing executables and unexpected
exceptions give `None`; a non-zero exit gives `None`; a zero exit strictly
decodes stdout (an undecodable stdout raises, is caught by the generic
handler, and gives `None`), strips it, applies the codex filter for the
`codex` model, and wraps the content. -/
def handleProcEvent (model : String) (ev : ProcEvent) : Option QueryResult :=
  match ev with
  | .fileNotFound => none
  | .timeout => none
  | .spawnFault => none
  | .exited rc stdout _stderr =>
    if rc ≠ 0 then none
    else
      match utf8Decode? stdout with
      | none => none
      | some chars =>
        let content := pyStrip (String.mk chars)
        let content := if model = "codex" then filter_codex_thinking content else content
        some { content := content, reasoning_details := none }

/-- `query_model` from `backend/cli_adapter.py`: resolve the model against
the freshly loaded CLI configs (`None` for an unknown model), compile the
conversation, build `cmd = [command] + args + [prompt]`, run the process
through the environment, and normalize every failure to `None`. -/
def queryModel (clis : List Cli) (env : ProcEnv) (model : String)
    (messages : List Message) (t : ℚ) : Option QueryResult :=
  match dictLookup (get_cli_configs clis) model with
  | none => none
  | some config =>
    let prompt := format_messages_as_prompt messages
    let cmd := [config.command] ++ config.args ++ [prompt]
    handleProcEvent model (env cmd t)

/-- `query_models_parallel` from `backend/cli_adapter.py`: one
`query_model` task per model (with the default 120-second timeout),
gathered in order, zipped back with the model names into a dict. -/
def query_models_parallel (clis : List Cli) (env : ProcEnv)
    (models : List String) (messages : List Message) :
    List (String × Option QueryResult) :=
  let responses := models.map fun model => queryModel clis env model messages 120
  models.zip responses

example :
    queryModel [⟨"gemini", "gemini", []⟩] (fun _ _ => .exited 0 [52] []) "gemini"
      [⟨some "user", some "2+2?"⟩] 120 = some ⟨"4", none⟩ := rfl

example :
    queryModel [⟨"gemini", "gemini", []⟩] (fun _ _ => .timeout) "gemini"
      [⟨some "user", some "2+2?"⟩] 120 = none := rfl

example :
    queryModel [⟨"gemini", "gemini", []⟩] (fun _ _ => .exited 0 [52] []) "unknown_model"
      [⟨some "user", some "2+2?"⟩] 120 = none := rfl

/-- The per-model body of `query_model` with the compiled prompt passed in
as a parameter instead of being compiled inside the call; used to state the
compile-once reading of the fan-out. -/
def invoke_with_prompt (clis : List Cli) (env : ProcEnv) (model : String)
    (prompt : String) (t : ℚ) : Option QueryResult :=
  match dictLookup (get_cli_configs clis) model with
  | none => none
  | some config => handleProcEvent model (env ([config.command] ++ config.args ++ [prompt]) t)

/-- The fan-out as the specification words it: the conversation is compiled
into a prompt exactly once, and that single compiler result is handed
unchanged to every per-model invocation. -/
def invoke_many_compile_once (clis : List Cli) (env : ProcEnv)
    (models : List String) (messages : List Message) :
    List (String × Option QueryResult) :=
  let prompt := format_messages_as_prompt messages
  models.zip (models.map fun model => invoke_with_prompt clis env model prompt 120)

/-- The line scan as claim C3 words it: the `tokens used` stop condition is
tested only while capturing is active, so a stop line seen before the
`codex` marker does not terminate the scan. -/
def claimScan : List String → Bool → List String
  | [], _ => []
  | line :: rest, inSection =>
    let stripped := pyStrip line
    if stripped = "codex" then claimScan rest true
    else if inSection && pyStartsWith stripped "tokens used" then []
    else if inSection then line :: claimScan rest inSection
    else claimScan rest inSection

/-! ## Theorems -/

/-- C6: a conversation of exactly one message whose role is `user`
compiles to that message's content verbatim — no role prefix, no added
whitespace. -/
theorem single_user_message_fast_path (m : Message) (h : m.role = some "user") :
    format_messages_as_prompt [m] = m.content.getD "" := by
  simp [format_messages_as_prompt, h]

/-- Witness for C6 at the spec's own example: `compile([{user, "Hello"}])
= "Hello"`. -/
theorem single_user_message_fast_path_witness :
    format_messages_as_prompt [⟨some "user", some "Hello"⟩] = "Hello" :=
  single_user_message_fast_path ⟨some "user", some "Hello"⟩ rfl

/-- C10: a message with no role field is not dropped: the role defaults to
`user`, so a single-message conversation without a role compiles to
`"User: <content>"` — never to the bare content, since the fast path
demands an explicit `user` role. -/
theorem missing_role_defaults_to_user (content : String) :
    format_messages_as_prompt [⟨none, some content⟩] = "User: " ++ content ∧
    "User: " ++ content ≠ content := by
  refine ⟨rfl, fun h => ?_⟩
  have hlen := congrArg String.length h
  rw [String.length_append] at hlen
  have h6 : ("User: " : String).length = 6 := rfl
  rw [h6] at hlen
  omega

/-- Witness for C10 at a concrete message. -/
theorem missing_role_defaults_to_user_witness :
    format_messages_as_prompt [⟨none, some "Hi"⟩] = "User: Hi" :=
  (missing_role_defaults_to_user "Hi").1

/-- C7: off the fast path, every message with an explicit recognized role
contributes its `"<Role>: <content>"` line, messages with any other
explicit role contribute nothing, the lines keep conversation order and are
joined by exactly two newlines; an empty or fully filtered conversation
yields the empty string (the right-hand side is then `intercalate` of
`[]`). -/
theorem multi_message_formatting (messages : List Message)
    (hfast : ∀ m, messages = [m] → m.role ≠ some "user")
    (hroles : ∀ m ∈ messages, m.role ≠ none) :
    format_messages_as_prompt messages =
      String.intercalate "\n\n" (messages.filterMap fun m =>
        if m.role = some "system" then some ("System: " ++ m.content.getD "")
        else if m.role = some "user" then some ("User: " ++ m.content.getD "")
        else if m.role = some "assistant" then some ("Assistant: " ++ m.content.getD "")
        else none) := by
  have hcong : messages.filterMap rolePart = messages.filterMap (fun m =>
      if m.role = some "system" then some ("System: " ++ m.content.getD "")
      else if m.role = some "user" then some ("User: " ++ m.content.getD "")
      else if m.role = some "assistant" then some ("Assistant: " ++ m.content.getD "")
      else none) := by
    apply List.filterMap_congr
    intro m hm
    rcases hr : m.role with _ | r
    · exact absurd hr (hroles m hm)
    · simp [rolePart, hr]
  rcases messages with _ | ⟨m, _ | ⟨m2, t⟩⟩
  · rfl
  · have hm : m.role ≠ some "user" := hfast m rfl
    simpa [format_messages_as_prompt, hm] using congrArg (String.intercalate "\n\n") hcong
  · simpa [format_messages_as_prompt] using congrArg (String.intercalate "\n\n") hcong

/-- Witness for C7 at a concrete two-message conversation. -/
theorem multi_message_formatting_witness :
    format_messages_as_prompt [⟨some "system", some "a"⟩, ⟨some "user", some "b"⟩] =
      String.intercalate "\n\n"
        (([⟨some "system", some "a"⟩, ⟨some "user", some "b"⟩] : List Message).filterMap fun m =>
          if m.role = some "system" then some ("System: " ++ m.content.getD "")
          else if m.role = some "user" then some ("User: " ++ m.content.getD "")
          else if m.role = some "assistant" then some ("Assistant: " ++ m.content.getD "")
          else none) :=
  multi_message_formatting _ (by intro m h; cases h) (by decide)

/-- Lookup in the dict zipped from a key list and the pointwise image of a
function on it: present exactly for the listed keys, with the function's
value (duplicates collapse to the same value). -/
theorem dictLookup_zip_map {α : Type} (f : String → α) :
    ∀ (models : List String) (m : String),
      dictLookup (models.zip (models.map f)) m = if m ∈ models then some (f m) else none
  | [], m => by simp [dictLookup]
  | a :: rest, m => by
    rw [List.map_cons, List.zip_cons_cons]
    simp only [dictLookup, dictLookup_zip_map f rest m]
    by_cases hm : m ∈ rest
    · rw [if_pos hm]
      simp [hm]
    · rw [if_neg hm]
      by_cases hma : m = a
      · subst hma
        simp [hm]
      · simp [hm, hma]

/-- C1: the fan-out result has exactly the requested identifiers as keys —
the key list is the model list itself, so the key set equals the input set
with duplicates collapsed and no extra keys — and every requested model is
mapped to its own call's outcome (a `QueryResult` or `none`), whatever the
environment makes each call do. -/
theorem invoke_many_key_set (clis : List Cli) (env : ProcEnv)
    (models : List String) (messages : List Message) :
    (query_models_parallel clis env models messages).map Prod.fst = models ∧
    ∀ m ∈ models, dictLookup (query_models_parallel clis env models messages) m =
      some (queryModel clis env m messages 120) := by
  constructor
  · exact List.map_fst_zip _ _ (by simp)
  · intro m hm
    simp only [query_models_parallel]
    rw [dictLookup_zip_map]
    simp [hm]

/-- Witness for C1: a two-model batch in which every call fails (one model
times out, the other is unknown) still yields both keys, each mapped to the
absence outcome. -/
theorem invoke_many_key_set_witness :
    (query_models_parallel [⟨"gemini", "gemini", []⟩] (fun _ _ => ProcEvent.timeout)
        ["gemini", "nope"] []).map Prod.fst = ["gemini", "nope"] ∧
    dictLookup (query_models_parallel [⟨"gemini", "gemini", []⟩] (fun _ _ => ProcEvent.timeout)
        ["gemini", "nope"] []) "nope" = some none := by
  have h := invoke_many_key_set [⟨"gemini", "gemini", []⟩] (fun _ _ => ProcEvent.timeout)
    ["gemini", "nope"] []
  exact ⟨h.1, h.2 "nope" (by simp)⟩

/-- C2: no failure escapes `query_model`.  Each of the five failure kinds —
unknown model, missing executable, timeout, unexpected spawn/communicate
fault, non-zero exit — and a strict-decode failure on a zero exit is
normalized to the absence outcome `none`; the function is total, so no
exception reaches the caller in the embedding. -/
theorem invoke_no_exception_escape (clis : List Cli) (env : ProcEnv) (model : String)
    (messages : List Message) (t : ℚ) :
    (dictLookup (get_cli_configs clis) model = none →
      queryModel clis env model messages t = none) ∧
    (∀ config, dictLookup (get_cli_configs clis) model = some config →
      (env ([config.command] ++ config.args ++ [format_messages_as_prompt messages]) t =
          ProcEvent.fileNotFound → queryModel clis env model messages t = none) ∧
      (env ([config.command] ++ config.args ++ [format_messages_as_prompt messages]) t =
          ProcEvent.timeout → queryModel clis env model messages t = none) ∧
      (env ([config.command] ++ config.args ++ [format_messages_as_prompt messages]) t =
          ProcEvent.spawnFault → queryModel clis env model messages t = none) ∧
      (∀ rc out err,
        env ([config.command] ++ config.args ++ [format_messages_as_prompt messages]) t =
          ProcEvent.exited rc out err → rc ≠ 0 →
        queryModel clis env model messages t = none) ∧
      (∀ out err,
        env ([config.command] ++ config.args ++ [format_messages_as_prompt messages]) t =
          ProcEvent.exited 0 out err → utf8Decode? out = none →
        queryModel clis env model messages t = none)) := by
  constructor
  · intro h
    simp [queryModel, h]
  · intro config hc
    refine ⟨?_, ?_, ?_, ?_, ?_⟩
    · intro henv
      simp only [List.cons_append, List.nil_append] at henv
      simp [queryModel, hc, henv, handleProcEvent]
    · intro henv
      simp only [List.cons_append, List.nil_append] at henv
      simp [queryModel, hc, henv, handleProcEvent]
    · intro henv
      simp only [List.cons_append, List.nil_append] at henv
      simp [queryModel, hc, henv, handleProcEvent]
    · intro rc out err henv hrc
      simp only [List.cons_append, List.nil_append] at henv
      simp [queryModel, hc, henv, handleProcEvent, hrc]
    · intro out err henv hdec
      simp only [List.cons_append, List.nil_append] at henv
      simp [queryModel, hc, henv, handleProcEvent, hdec]

/-- Witness for C2: a timed-out call and an unknown-model call, both
returning the absence outcome. -/
theorem invoke_no_exception_escape_witness :
    queryModel [⟨"gemini", "gemini", []⟩] (fun _ _ => ProcEvent.timeout) "gemini" [] 120 = none ∧
    queryModel [⟨"gemini", "gemini", []⟩] (fun _ _ => ProcEvent.timeout) "nope" [] 120 = none := by
  have h1 := invoke_no_exception_escape [⟨"gemini", "gemini", []⟩]
    (fun _ _ => ProcEvent.timeout) "gemini" [] 120
  have h2 := invoke_no_exception_escape [⟨"gemini", "gemini", []⟩]
    (fun _ _ => ProcEvent.timeout) "nope" [] 120
  exact ⟨(h1.2 ⟨"gemini", []⟩ rfl).2.1 rfl, h2.1 rfl⟩

/-- C5: the fan-out is observationally the compile-once fan-out — each
per-model call compiling the shared conversation itself produces exactly
the batch obtained by compiling once and reusing that single prompt
unchanged, because the compiler is pure. -/
theorem invoke_many_compiles_once (clis : List Cli) (env : ProcEnv)
    (models : List String) (messages : List Message) :
    query_models_parallel clis env models messages =
      invoke_many_compile_once clis env models messages := rfl

/-- C9: with the model resolved, the call runs the environment on exactly
the argument vector `[command] + args + [prompt]` — the compiled prompt is
the final positional argument; the environment consumes an argument vector
(there is no shell string), and the result content never depends on the
separately captured stderr stream. -/
theorem invoke_builds_exact_argv (clis : List Cli) (env : ProcEnv) (model : String)
    (messages : List Message) (t : ℚ) (config : CliConfig)
    (hc : dictLookup (get_cli_configs clis) model = some config) :
    queryModel clis env model messages t =
      handleProcEvent model
        (env ([config.command] ++ config.args ++ [format_messages_as_prompt messages]) t) ∧
    ([config.command] ++ config.args ++ [format_messages_as_prompt messages]).getLast? =
      some (format_messages_as_prompt messages) ∧
    (∀ (rc : Int) (out err err2 : List Nat),
      handleProcEvent model (ProcEvent.exited rc out err) =
        handleProcEvent model (ProcEvent.exited rc out err2)) := by
  refine ⟨?_, ?_, ?_⟩
  · simp [queryModel, hc]
  · rw [show [config.command] ++ config.args ++ [format_messages_as_prompt messages] =
        (config.command :: config.args) ++ [format_messages_as_prompt messages] by simp]
    exact List.getLast?_concat _
  · intro rc out err err2
    rfl

/-- Witness for C9 at the `claude` spec `["claude", "-p"]` and the prompt
`"Q"`. -/
theorem invoke_builds_exact_argv_witness :
    queryModel [⟨"claude", "claude", ["-p"]⟩] (fun _ _ => ProcEvent.exited 0 [79, 75] [])
        "claude" [⟨some "user", some "Q"⟩] 120 =
      handleProcEvent "claude" (ProcEvent.exited 0 [79, 75] []) ∧
    (["claude"] ++ ["-p"] ++ ["Q"]).getLast? = some "Q" := by
  have h := invoke_builds_exact_argv [⟨"claude", "claude", ["-p"]⟩]
    (fun _ _ => ProcEvent.exited 0 [79, 75] []) "claude" [⟨some "user", some "Q"⟩] 120
    ⟨"claude", ["-p"]⟩ rfl
  exact ⟨h.1, h.2.1⟩

/-- C8: when the line scan captures nothing and the `"\ncodex\n"` substring
is absent, the filter returns the input stripped of leading and trailing
whitespace only; the function is total, so no error is ever raised. -/
theorem no_markers_returns_stripped (content : String)
    (h1 : codexScan (pySplitNl content) false = [])
    (h2 : pyContains (String.toList "\ncodex\n") content.toList = false) :
    filter_codex_thinking content = pyStrip content := by
  simp only [filter_codex_thinking]
  rw [h1, h2]
  simp

/-- Witness for C8 at the test suite's plain-text input. -/
theorem no_markers_returns_stripped_witness :
    filter_codex_thinking "Just some plain text" = "Just some plain text" :=
  no_markers_returns_stripped "Just some plain text" rfl rfl

/-- Counterexample to C4 as stated: the process exits zero with the single
undecodable byte `0xFF` on stdout, and `query_model` returns the absence
outcome `none` instead of a `QueryResult` holding a replacement-decoded
string — the source performs a strict decode inside the `try` block. -/
theorem decode_failure_yields_absence_counterexample :
    utf8Decode? [255] = none ∧
    queryModel [⟨"gemini", "gemini", []⟩] (fun _ _ => ProcEvent.exited 0 [255] []) "gemini"
      [⟨some "user", some "hi"⟩] 120 = none :=
  ⟨rfl, rfl⟩

/-- C4 amended: a zero-exit run whose stdout bytes are not valid text makes
`query_model` return the absence outcome `none` — the strict decode raises,
the generic handler catches it, and no best-effort replacement decoding is
performed; the failure still never propagates as an exception. -/
theorem decode_failure_yields_absence (clis : List Cli) (env : ProcEnv) (model : String)
    (messages : List Message) (t : ℚ) (config : CliConfig) (out err : List Nat)
    (hc : dictLookup (get_cli_configs clis) model = some config)
    (henv : env ([config.command] ++ config.args ++ [format_messages_as_prompt messages]) t =
      ProcEvent.exited 0 out err)
    (hdec : utf8Decode? out = none) :
    queryModel clis env model messages t = none := by
  simp only [List.cons_append, List.nil_append] at henv
  simp [queryModel, hc, henv, handleProcEvent, hdec]

/-- Witness for the amended C4 at a truncated two-byte UTF-8 sequence. -/
theorem decode_failure_yields_absence_witness :
    queryModel [⟨"gemini", "gemini", []⟩] (fun _ _ => ProcEvent.exited 0 [195] []) "gemini"
      [] 120 = none :=
  decode_failure_yields_absence [⟨"gemini", "gemini", []⟩] (fun _ _ => ProcEvent.exited 0 [195] [])
    "gemini" [] 120 ⟨"gemini", []⟩ [195] [] rfl rfl rfl

/-- Lines that neither strip to `codex` nor strip to something starting
with `tokens used` are passed over by the scan without capturing while
capture is off. -/
theorem codexScan_append_skip (pre rest : List String)
    (hpre : ∀ l ∈ pre, pyStrip l ≠ "codex" ∧ pyStartsWith (pyStrip l) "tokens used" = false) :
    codexScan (pre ++ rest) false = codexScan rest false := by
  induction pre with
  | nil => rfl
  | cons a tl ih =>
    have ha := hpre a (by simp)
    simp only [List.cons_append, codexScan, ha.1, ha.2, if_false, Bool.false_eq_true,
      if_neg (ha.1)]
    exact ih fun l hl => hpre l (by simp [hl])

/-- A line stripping to something that starts with `tokens used` breaks the
scan at once, in either capture state, discarding everything. -/
theorem codexScan_stop (stop : String) (rest : List String)
    (hstop : pyStartsWith (pyStrip stop) "tokens used" = true) (b : Bool) :
    codexScan (stop :: rest) b = [] := by
  have hne : pyStrip stop ≠ "codex" := by
    intro he
    rw [he] at hstop
    exact absurd hstop (by decide)
  simp [codexScan, hne, hstop]

/-- While capture is on, the scan keeps every line up to the first
`tokens used` line and drops that line and the rest. -/
theorem codexScan_capture (mid : List String) (stop : String) (rest : List String)
    (hmid : ∀ l ∈ mid, pyStrip l ≠ "codex" ∧ pyStartsWith (pyStrip l) "tokens used" = false)
    (hstop : pyStartsWith (pyStrip stop) "tokens used" = true) :
    codexScan (mid ++ stop :: rest) true = mid := by
  induction mid with
  | nil => simpa using codexScan_stop stop rest hstop true
  | cons a tl ih =>
    have ha := hmid a (by simp)
    simp only [List.cons_append, codexScan, ha.1, ha.2, Bool.false_eq_true, if_false,
      if_neg (ha.1), if_true]
    exact congrArg (List.cons a) (ih fun l hl => hmid l (by simp [hl]))

/-- C3 amended: the stop condition is tested whether or not capture is
active, so a `tokens used` line occurring before any `codex` marker
terminates the whole scan with nothing captured; only when the marker
precedes every stop line does the scan capture exactly the lines strictly
between the marker and the first stop line, and a non-empty capture is what
the filter joins, strips and returns. -/
theorem scan_stop_applies_before_capture (pre mid rest rest2 : List String)
    (marker stop stop2 : String)
    (hpre : ∀ l ∈ pre, pyStrip l ≠ "codex" ∧ pyStartsWith (pyStrip l) "tokens used" = false)
    (hmarker : pyStrip marker = "codex")
    (hmid : ∀ l ∈ mid, pyStrip l ≠ "codex" ∧ pyStartsWith (pyStrip l) "tokens used" = false)
    (hstop : pyStartsWith (pyStrip stop) "tokens used" = true)
    (hstop2 : pyStartsWith (pyStrip stop2) "tokens used" = true) :
    codexScan (pre ++ stop :: rest) false = [] ∧
    codexScan (pre ++ (marker :: (mid ++ stop2 :: rest2))) false = mid ∧
    (∀ content : String, codexScan (pySplitNl content) false ≠ [] →
      filter_codex_thinking content =
        pyStrip (String.intercalate "\n" (codexScan (pySplitNl content) false))) := by
  refine ⟨?_, ?_, ?_⟩
  · rw [codexScan_append_skip pre _ hpre]
    exact codexScan_stop stop rest hstop false
  · rw [codexScan_append_skip pre _ hpre]
    simp only [codexScan, hmarker]
    exact codexScan_capture mid stop2 rest2 hmid hstop2
  · intro content hne
    simp [filter_codex_thinking, hne]

/-- Witness for the amended C3: a stop line ahead of everything kills the
scan; with the marker first, the body is captured; on a well-formed
transcript the filter returns the joined stripped capture. -/
theorem scan_stop_applies_before_capture_witness :
    codexScan (["intro"] ++ "tokens used b" :: ["codex", "Four"]) false = [] ∧
    codexScan (["intro"] ++ ("codex" :: (["Four"] ++ "tokens used b" :: ["z"]))) false =
      ["Four"] ∧
    filter_codex_thinking "intro\ncodex\nFour\ntokens used b" =
      pyStrip (String.intercalate "\n"
        (codexScan (pySplitNl "intro\ncodex\nFour\ntokens used b") false)) := by
  have h := scan_stop_applies_before_capture ["intro"] ["Four"] ["codex", "Four"] ["z"]
    "codex" "tokens used b" "tokens used b" (by decide) (by decide) (by decide) (by decide)
    (by decide)
  exact ⟨h.1, h.2.1, h.2.2 "intro\ncodex\nFour\ntokens used b" (by decide)⟩

/-- Counterexample to C3 as stated: in the input
`"tokens used x\n  codex\nANSWER"` the stop line precedes the (indented)
marker line, so the claim's scan — which ignores stop lines until capturing
— would capture and return `"ANSWER"`, but the filter returns the whole
stripped input because its scan breaks on the very first line and the
substring fallback does not fire. -/
theorem stop_before_marker_counterexample :
    filter_codex_thinking "tokens used x\n  codex\nANSWER" =
      "tokens used x\n  codex\nANSWER" ∧
    pyStrip (String.intercalate "\n"
      (claimScan (pySplitNl "tokens used x\n  codex\nANSWER") false)) = "ANSWER" ∧
    ("tokens used x\n  codex\nANSWER" : String) ≠ "ANSWER" := by
  refine ⟨rfl, rfl, by decide⟩
